import Mathlib

set_option autoImplicit false
set_option maxRecDepth 100000

/-
Shallow embedding of torch/csrc/distributed/rpc/process_group_agent.cpp.

Modelling conventions:
- machine integers (int, int64_t, worker_id_t) become Int;
- the out-of-scope tensor serialization (torch::save / torch::load) is
  reduced, as the spec reduces it, to the identity on a list of binary
  blocks, so a wire body is a `List Tensor`;
- TORCH_CHECK / AT_ERROR failures become `Except.error (Err.check msg)`
  (a diagnosed fatal abort); undefined behaviour (out-of-bounds
  std::vector indexing, dereferencing a null shared_ptr) becomes
  `Except.error Err.ub` (an undiagnosed crash);
- the agent's mutable fields (nextId_, futures_, the thread-pool queue)
  become explicit state threaded through the operations; the thread-pool
  enqueue is modelled by appending the job's SendWork to a queue, which
  makes the program-order fact "the future is registered before the send
  job exists" directly visible;
- shared_ptr<FutureMessage> sharing between the caller and the pending
  table is modelled by a store of Futures (`AgentState.store`) addressed
  by index, the pending table mapping request id to store index.
-/

namespace PGAgent

/-- Outcome of an operation that can die: `check msg` is a diagnosed
fatal abort (TORCH_CHECK / AT_ERROR with a diagnostic message), `ub` is
undefined behaviour (out-of-bounds std::vector access or a null
shared_ptr dereference), which crashes without a diagnostic. -/
inductive Err
  | check (msg : String)
  | ub
deriving DecidableEq

/-- Message types of the RPC wire protocol (enum MessageType). -/
inductive MessageType
  | request
  | response
  | shutdown
deriving DecidableEq

/-- Auxiliary binary block of a wire body: either a byte (kChar) tensor
or an int64 (kInt64) tensor, the two kinds that serialize builds. -/
inductive Tensor
  | char (data : List Int)
  | int64 (data : List Int)
deriving DecidableEq

/-- Message: opaque byte payload, auxiliary binary blocks (the tensor
table), a type and an int64 id (the spec's data model for rpc Message). -/
structure Message where
  payload : List Int
  tensors : List Tensor
  type : MessageType
  id : Int
deriving DecidableEq

/-- Message.isRequest() of the source. -/
def Message.isRequest (m : Message) : Bool :=
  match m.type with
  | MessageType.request => true
  | _ => false

/-- Message.isResponse() of the source. -/
def Message.isResponse (m : Message) : Bool :=
  match m.type with
  | MessageType.response => true
  | _ => false

/-- Message.isShutdown() of the source. -/
def Message.isShutdown (m : Message) : Bool :=
  match m.type with
  | MessageType.shutdown => true
  | _ => false

/-- Message.setId(id) of the source: the single mutation a message
undergoes on the send path. -/
def Message.setId (m : Message) (i : Int) : Message :=
  { m with id := i }

/-- Reduce an integer to the signed char obtained by truncation, as a
memcpy of one byte of its two's-complement representation yields. -/
def toSignedByte (x : Int) : Int :=
  let b := x % 256
  if b < 128 then b else b - 256

/-- Little-endian two's-complement bytes of an int64, as laid out in an
int64 tensor's storage. -/
def int64LE (x : Int) : List Int :=
  let u := x % (2 ^ 64)
  (List.range 8).map (fun i => toSignedByte (u / 2 ^ (8 * i)))

/-- Bytes read when deserialize memcpy's `numel` bytes out of the
payload tensor's storage (process_group_agent.cpp lines 45-51): for a
char tensor that is its data; for an int64 tensor the copy reads only
the first `numel` bytes of the element storage. -/
def Tensor.payloadBytes : Tensor → List Int
  | Tensor.char d => d
  | Tensor.int64 d => List.take d.length (List.foldr (fun a acc => int64LE a ++ acc) [] d)

/-- Read `storage().data<int64_t>()[0]` of the id tensor
(process_group_agent.cpp line 43); anything but a non-empty int64
tensor makes that read undefined behaviour. -/
def Tensor.firstInt64 : Tensor → Except Err Int
  | Tensor.int64 (x :: _) => Except.ok x
  | _ => Except.error Err.ub

/-- serialize (process_group_agent.cpp lines 13-30): the body is the
message's tensor table with the payload appended as a char tensor and
the id appended last as a one-element int64 tensor; torch::save of the
resulting list is modelled as the identity. -/
def serialize (m : Message) : List Tensor :=
  m.tensors ++ [Tensor.char m.payload, Tensor.int64 [m.id]]

/-- deserialize (process_group_agent.cpp lines 32-54): torch::load is
modelled as the identity; requires at least 2 blocks
(TORCH_CHECK "Failed to deserialize a message."), pops the id tensor,
then the payload tensor, and rebuilds the Message with the given type. -/
def deserialize (type : MessageType) (ts : List Tensor) : Except Err Message :=
  match ts.reverse with
  | idT :: pT :: rest =>
    match idT.firstInt64 with
    | Except.ok i => Except.ok (Message.mk pT.payloadBytes rest.reverse type i)
    | Except.error e => Except.error e
  | _ => Except.error (Err.check "Failed to deserialize a message.")

/-- WorkerId: a worker's name and transport rank (worker_id_t). -/
structure WorkerId where
  name : String
  id : Int
deriving DecidableEq

/-- Future (FutureMessage, declared in a header outside src/).
Modelled from the spec: a single-assignment container that can be
marked completed, with or without a carried Message. -/
structure Future where
  completed : Bool
  value : Option Message
deriving DecidableEq

/-- FutureMessage::markCompleted() with no message (the fire-and-forget
branch of send). -/
def Future.markDone (f : Future) : Future :=
  { f with completed := true }

/-- FutureMessage::markCompleted(Message) invoked by the receive job on
a matching response. -/
def Future.markCompletedWith (_f : Future) (m : Message) : Future :=
  { completed := true, value := some m }

/-- SendWork: destination WorkerId (an independent copy, as the source
comments demand) plus the message, carried into the thread pool. The
source field `to_` is named dst here because `to` is reserved. -/
structure SendWork where
  dst : WorkerId
  message : Message
deriving DecidableEq

/-- RecvWork: sender, wire message type from the preamble, and the
received body (a block list, since serialization is the identity). -/
structure RecvWork where
  fromWorker : WorkerId
  type : MessageType
  payload : List Tensor
deriving DecidableEq

/-- Agent state: the fields of ProcessGroupAgent that the claims
observe. `store` holds every Future ever allocated (shared_ptr targets,
addressed by index); `futures` is the pending-request table mapping
request id to store index; `sendQueue` records the SendWork jobs handed
to the thread pool, in enqueue order. -/
structure AgentState where
  selfRank : Int
  worldSize : Int
  nameMap : List (String × Int)
  workerIds : List WorkerId
  nextId : Int
  store : List Future
  futures : List (Int × Nat)
  sendQueue : List SendWork
deriving DecidableEq

/-- unordered_map::find on the name map (names are unique keys). -/
def lookupName : List (String × Int) → String → Option Int
  | [], _ => none
  | (n, r) :: rest, x => if n = x then some r else lookupName rest x

/-- The constructor's loop `tmpWorkerIds[entry.second] = entry.first`
(process_group_agent.cpp lines 83-85): each write indexes a
vector<string> of size worldSize with the entry's rank, unchecked in
the source, so a rank outside the vector is undefined behaviour. -/
def fillRanks : List String → List (String × Int) → Except Err (List String)
  | v, [] => Except.ok v
  | v, (n, r) :: rest =>
    if 0 ≤ r ∧ r.toNat < v.length then fillRanks (v.set r.toNat n) rest
    else Except.error Err.ub

/-- The constructor's second loop (lines 87-90): workerIds_ gets one
WorkerId per rank, in rank order, named from the filled name vector. -/
def buildWorkerIds : Nat → List String → List WorkerId
  | _, [] => []
  | r, n :: rest => WorkerId.mk n (Int.ofNat r) :: buildWorkerIds (r + 1) rest

/-- ProcessGroupAgent::ProcessGroupAgent (lines 58-94): the three
TORCH_CHECK validations (map size > 1, own name resolves, resolved rank
equals the transport rank), then the rank-ordered worker list is built;
pgRank and pgSize stand for pg->getRank() and pg->getSize(). The
thread-start and Python-handler side effects are outside the model. -/
def mkAgent (workerName : String) (nameMap : List (String × Int))
    (pgRank : Int) (pgSize : Int) : Except Err AgentState :=
  if 1 < nameMap.length then
    match lookupName nameMap workerName with
    | none =>
      Except.error (Err.check ("Failed to resolve worker name " ++ workerName ++
        " to a ProcessGroup rank."))
    | some r =>
      if pgRank = r then
        match fillRanks (List.replicate pgSize.toNat "") nameMap with
        | Except.error e => Except.error e
        | Except.ok tmp =>
          Except.ok
            { selfRank := pgRank
              worldSize := pgSize
              nameMap := nameMap
              workerIds := buildWorkerIds 0 tmp
              nextId := 0
              store := []
              futures := []
              sendQueue := [] }
      else
        Except.error (Err.check "Resolved worker rank does not match ProcessGroup rank")
  else
    Except.error (Err.check "ProcessGroupAgent requires world_size to be at least 2")

/-- ProcessGroupAgent::getWorkerId(workerName) (lines 96-103): find the
name (TORCH_CHECK with "Unknown destination worker" on failure), then
return workerIds_[rank] — an unchecked vector index. -/
def getWorkerId (s : AgentState) (workerName : String) : Except Err WorkerId :=
  match lookupName s.nameMap workerName with
  | none => Except.error (Err.check ("Unknown destination worker " ++ workerName))
  | some r =>
    if h : 0 ≤ r ∧ r.toNat < s.workerIds.length then
      Except.ok (s.workerIds.get ⟨r.toNat, h.2⟩)
    else Except.error Err.ub

/-- Diagnostic of the send-to-self TORCH_CHECK (line 139). -/
def selfErrMsg : String :=
  "ProcessGroupAgent does not support making RPC calls to self."

/-- Diagnostic of the destination-rank TORCH_CHECK (line 141). -/
def oobErrMsg : String :=
  "Destination rank is out of bound"

/-- enqueueSend(SendWork(workerIds_[to.id_], message)) as called from
send (line 166): the vector index workerIds_[to.id_] is unchecked in
the source, so a destination id outside the vector is undefined
behaviour; otherwise the job is handed to the thread pool. -/
def enqueueSendStep (s : AgentState) (dst : WorkerId) (m : Message) :
    Except Err AgentState :=
  if h : 0 ≤ dst.id ∧ dst.id.toNat < s.workerIds.length then
    Except.ok
      { s with sendQueue :=
          s.sendQueue ++ [SendWork.mk (s.workerIds.get ⟨dst.id.toNat, h.2⟩) m] }
  else Except.error Err.ub

/-- ProcessGroupAgent::send (lines 137-168). Checks: destination not
self, destination id below world size (the source checks no lower
bound). Then `auto requestId = nextId()` runs unconditionally; nextId()
is declared in the header outside src/ and is Modelled from the spec: a
locally-unique monotonically increasing counter, so it returns the
current counter and increments it. A fresh Future is allocated; for a
REQUEST it is registered under the table's lock and the id is assigned
to the message, otherwise markCompleted() is called at once; finally
the SendWork is enqueued and the Future returned (as its store index). -/
def send (s : AgentState) (dst : WorkerId) (message : Message) :
    Except Err (Nat × AgentState) :=
  if dst.id = s.selfRank then
    Except.error (Err.check selfErrMsg)
  else if dst.id < s.worldSize then
    let requestId := s.nextId
    let fidx := s.store.length
    let f0 : Future := Future.mk false none
    let s1 : AgentState := { s with nextId := s.nextId + 1 }
    if message.isRequest then
      let s2 : AgentState :=
        { s1 with
          store := s1.store ++ [f0]
          futures := s1.futures ++ [(requestId, fidx)] }
      match enqueueSendStep s2 dst (message.setId requestId) with
      | Except.ok s3 => Except.ok (fidx, s3)
      | Except.error e => Except.error e
    else
      let s2 : AgentState := { s1 with store := s1.store ++ [f0.markDone] }
      match enqueueSendStep s2 dst message with
      | Except.ok s3 => Except.ok (fidx, s3)
      | Except.error e => Except.error e
  else
    Except.error (Err.check oobErrMsg)

/-- unordered_map::find on the pending-request table. -/
def lookupId : List (Int × Nat) → Int → Option Nat
  | [], _ => none
  | (k, v) :: rest, x => if k = x then some v else lookupId rest x

/-- unordered_map::erase(id) on the pending-request table (keys are
unique, so erasing the first occurrence models it). -/
def eraseId : List (Int × Nat) → Int → List (Int × Nat)
  | [], _ => []
  | (k, v) :: rest, x => if k = x then rest else (k, v) :: eraseId rest x

/-- The RESPONSE branch of the receive job (lines 233-239):
`futures_[id]->markCompleted(message); futures_.erase(id)`. When the id
is present the shared Future is completed with the message and the
entry erased. When the id is absent, unordered_map::operator[]
default-constructs a null shared_ptr<FutureMessage> and the call on it
dereferences null — undefined behaviour, with no TORCH_CHECK guarding
the lookup. The inner `none` branch (a table index outside the store)
cannot arise from the agent's own operations and is likewise UB. -/
def handleResponse (s : AgentState) (message : Message) : Except Err AgentState :=
  match lookupId s.futures message.id with
  | some fidx =>
    match s.store.get? fidx with
    | some f =>
      Except.ok
        { s with
          store := s.store.set fidx (f.markCompletedWith message)
          futures := eraseId s.futures message.id }
    | none => Except.error Err.ub
  | none => Except.error Err.ub

/-- The receive job body (ProcessGroupAgent::enqueueRecv, lines
220-247): deserialize the body with the preamble's type; a REQUEST goes
through the response callback `cb` and back into send toward the
sender; a RESPONSE completes the pending Future; anything else is the
AT_ERROR("unrecognized message type") diagnosed abort. -/
def recvJob (cb : Message → Message) (s : AgentState) (work : RecvWork) :
    Except Err AgentState :=
  match deserialize work.type work.payload with
  | Except.error e => Except.error e
  | Except.ok message =>
    match message.type with
    | MessageType.request =>
      (send s work.fromWorker (cb message)).map (fun p => p.2)
    | MessageType.response => handleResponse s message
    | MessageType.shutdown =>
      Except.error (Err.check "unrecognized message type")

/-- Halves of a message's wire traffic: the preamble transmission and
the body transmission (the two pg_->send calls of the send job). -/
inductive Part
  | preamble
  | body
deriving DecidableEq

/-- Atomic actions of a send job toward one destination rank, as the
scheduler can interleave them. -/
inductive SAct
  | lock
  | emit (p : Part)
  | unlock
deriving DecidableEq

/-- The non-SHUTDOWN send job of enqueueSend (lines 196-210): acquire
the destination's mutex (the lock_guard), transmit the preamble,
transmit the body, release the mutex (end of the guarded scope; the
waits on the completion handles happen after release and emit nothing
on the wire). -/
def sendJobActs : List SAct :=
  [SAct.lock, SAct.emit Part.preamble, SAct.emit Part.body, SAct.unlock]

/-- Interleaving state of two send jobs (identified by false / true)
toward the same destination rank: who holds that rank's mutex, each
job's program counter, and the wire as the transport sees it — a list
of (job, part) transmissions. -/
structure CState where
  holder : Option Bool
  pcA : Nat
  pcB : Nat
  wire : List (Bool × Part)
deriving DecidableEq

/-- Program counter of job `j`. -/
def jobPc (st : CState) (j : Bool) : Nat :=
  if j then st.pcB else st.pcA

/-- Advance job `j`'s program counter. -/
def advance (st : CState) (j : Bool) : CState :=
  if j then { st with pcB := st.pcB + 1 } else { st with pcA := st.pcA + 1 }

/-- One scheduler step of job `j`: its next action runs if enabled
(locking needs the mutex free; unlocking needs to hold it), else the
job stays blocked (`none`). -/
def stepJob (st : CState) (j : Bool) : Option CState :=
  match sendJobActs.get? (jobPc st j) with
  | none => none
  | some SAct.lock =>
    match st.holder with
    | none => some (advance { st with holder := some j } j)
    | some _ => none
  | some (SAct.emit p) => some (advance { st with wire := st.wire ++ [(j, p)] } j)
  | some SAct.unlock =>
    if st.holder = some j then some (advance { st with holder := none } j)
    else none

/-- Run a schedule (the sequence of job choices); `none` when a chosen
step is blocked, in which case the same execution is reached by a
schedule that simply omits the blocked attempt. -/
def runSched (st : CState) : List Bool → Option CState
  | [] => some st
  | j :: rest =>
    match stepJob st j with
    | none => none
    | some st2 => runSched st2 rest

/-- Both jobs at their first action, mutex free, wire empty. -/
def init9 : CState :=
  { holder := none, pcA := 0, pcB := 0, wire := [] }

/-- Number of adjacent sender changes in a wire's job projection; 0 or
1 means each job's transmissions sit in one contiguous block. -/
def alternations : List Bool → Nat
  | [] => 0
  | [_] => 0
  | a :: b :: rest => (if a = b then 0 else 1) + alternations (b :: rest)

/-- The contiguous wire block of one job: its preamble then its body. -/
def jobBlock (j : Bool) : List (Bool × Part) :=
  [(j, Part.preamble), (j, Part.body)]

/-- A completed wire is one job's block followed by the other's. -/
def okWire (w : List (Bool × Part)) : Bool :=
  decide (w = jobBlock false ++ jobBlock true) ||
    decide (w = jobBlock true ++ jobBlock false)

/-- All boolean lists of length n: the candidate schedules. -/
def allBoolLists : Nat → List (List Bool)
  | 0 => [[]]
  | n + 1 =>
    let prev := allBoolLists n
    prev.map (fun l => false :: l) ++ prev.map (fun l => true :: l)

/-- Exhaustive check over every schedule of the two concurrent send
jobs: any reachable wire keeps each job's transmissions contiguous
(never interleaved), and every completed execution's wire is exactly
one job's preamble+body followed by the other's. -/
def c9check : Bool :=
  (allBoolLists 8).all (fun sch =>
    match runSched init9 sch with
    | none => true
    | some st =>
      decide (alternations (st.wire.map Prod.fst) ≤ 1) &&
        (if jobPc st false = 4 && jobPc st true = 4 then okWire st.wire else true))

/-- A concrete agent as built for the two-worker map a ↦ 0, b ↦ 1 with
local worker a at transport rank 0 of a world of size 2. -/
def agentA : AgentState :=
  { selfRank := 0
    worldSize := 2
    nameMap := [("a", 0), ("b", 1)]
    workerIds := [WorkerId.mk "a" 0, WorkerId.mk "b" 1]
    nextId := 0
    store := []
    futures := []
    sendQueue := [] }

/-- The peer worker b of the concrete agent. -/
def wB : WorkerId := WorkerId.mk "b" 1

/-- A destination carrying a negative rank. -/
def wNeg : WorkerId := WorkerId.mk "x" (-1)

/-- A concrete REQUEST message. -/
def reqMsg : Message :=
  { payload := [1], tensors := [], type := MessageType.request, id := -1 }

/-- A concrete RESPONSE message. -/
def respMsg : Message :=
  { payload := [2], tensors := [], type := MessageType.response, id := 0 }

/-- A concrete RESPONSE message carrying id 7. -/
def respMsg7 : Message :=
  { payload := [9], tensors := [], type := MessageType.response, id := 7 }

/-- An agent state with one pending request: id 7 mapped to the Future
at store index 0, which is still unresolved. -/
def pendState : AgentState :=
  { selfRank := 0
    worldSize := 2
    nameMap := [("a", 0), ("b", 1)]
    workerIds := [WorkerId.mk "a" 0, WorkerId.mk "b" 1]
    nextId := 8
    store := [Future.mk false none]
    futures := [(7, 0)]
    sendQueue := [] }

/-- A concrete message with a non-empty payload and one auxiliary
block, for the round-trip witness. -/
def demoMsg : Message :=
  { payload := [1, 2], tensors := [Tensor.char [5]], type := MessageType.request, id := 42 }

/-- Appending one element and reading at the old length yields it. -/
theorem get?_concat_self {α : Type} (l : List α) (a : α) :
    (l ++ [a]).get? l.length = some a := by
  induction l with
  | nil => rfl
  | cons x xs ih => exact ih

/-- Overwriting the appended last element. -/
theorem set_concat_len {α : Type} (l : List α) (a b : α) :
    (l ++ [a]).set l.length b = l ++ [b] := by
  induction l with
  | nil => rfl
  | cons x xs ih =>
    show x :: ((xs ++ [a]).set xs.length b) = x :: (xs ++ [b])
    rw [ih]

/-- Setting one position leaves reads at other positions unchanged. -/
theorem get?_set_of_ne {α : Type} (l : List α) (n m : Nat) (a : α) (h : n ≠ m) :
    (l.set n a).get? m = l.get? m := by
  induction l generalizing n m with
  | nil => rfl
  | cons x xs ih =>
    cases n with
    | zero =>
      cases m with
      | zero => exact absurd rfl h
      | succ m2 => rfl
    | succ n2 =>
      cases m with
      | zero => rfl
      | succ m2 => simpa using ih n2 m2 (fun hc => h (by rw [hc]))

/-- Looking a key up past a prefix that lacks it. -/
theorem lookupId_append_none (l1 l2 : List (Int × Nat)) (k : Int)
    (h : lookupId l1 k = none) : lookupId (l1 ++ l2) k = lookupId l2 k := by
  induction l1 with
  | nil => rfl
  | cons p rest ih =>
    obtain ⟨pk, pv⟩ := p
    by_cases hk : pk = k
    · simp [lookupId, hk] at h
    · simp only [lookupId, if_neg hk] at h
      simp only [List.cons_append, lookupId, if_neg hk]
      exact ih h

/-- A singleton appended with a different key does not affect lookup. -/
theorem lookupId_append_ne (l1 : List (Int × Nat)) (k : Int) (v : Nat) (x : Int)
    (h : x ≠ k) : lookupId (l1 ++ [(k, v)]) x = lookupId l1 x := by
  induction l1 with
  | nil =>
    have hk : k ≠ x := fun hc => h hc.symm
    simp [lookupId, hk]
  | cons p rest ih =>
    obtain ⟨pk, pv⟩ := p
    by_cases hk : pk = x
    · simp [lookupId, hk]
    · simp only [List.cons_append, lookupId, if_neg hk]
      exact ih

/-- A successful lookup exhibits a member of the table. -/
theorem lookupId_mem (l : List (Int × Nat)) (k : Int) (v : Nat)
    (h : lookupId l k = some v) : (k, v) ∈ l := by
  induction l with
  | nil => simp [lookupId] at h
  | cons p rest ih =>
    obtain ⟨pk, pv⟩ := p
    by_cases hk : pk = k
    · simp only [lookupId, if_pos hk] at h
      cases h
      subst hk
      exact List.mem_cons_self _ _
    · simp only [lookupId, if_neg hk] at h
      exact List.mem_cons_of_mem _ (ih h)

/-- Erasing a key appended after a prefix that lacks it restores the prefix. -/
theorem eraseId_append_none (l : List (Int × Nat)) (k : Int) (v : Nat)
    (h : lookupId l k = none) : eraseId (l ++ [(k, v)]) k = l := by
  induction l with
  | nil => simp [eraseId]
  | cons p rest ih =>
    obtain ⟨pk, pv⟩ := p
    by_cases hk : pk = k
    · simp [lookupId, hk] at h
    · simp only [lookupId, if_neg hk] at h
      simp only [List.cons_append, eraseId, if_neg hk]
      exact congrArg (List.cons (pk, pv)) (ih h)

/-- A successful name lookup exhibits a member of the map. -/
theorem lookupName_mem (l : List (String × Int)) (x : String) (r : Int)
    (h : lookupName l x = some r) : (x, r) ∈ l := by
  induction l with
  | nil => simp [lookupName] at h
  | cons p rest ih =>
    obtain ⟨pn, pr⟩ := p
    by_cases hn : pn = x
    · simp only [lookupName, if_pos hn] at h
      cases h
      subst hn
      exact List.mem_cons_self _ _
    · simp only [lookupName, if_neg hn] at h
      exact List.mem_cons_of_mem _ (ih h)

/-- fillRanks succeeds when every entry's rank indexes the vector. -/
theorem fillRanks_ok_of (l : List (String × Int)) (v : List String)
    (h : ∀ p ∈ l, 0 ≤ p.2 ∧ p.2.toNat < v.length) :
    ∃ v2, fillRanks v l = Except.ok v2 := by
  induction l generalizing v with
  | nil => exact ⟨v, rfl⟩
  | cons p rest ih =>
    obtain ⟨pn, pr⟩ := p
    have hp := h (pn, pr) (List.mem_cons_self _ _)
    simp only [fillRanks, if_pos hp]
    exact ih (v.set pr.toNat pn) (fun q hq => by
      have := h q (List.mem_cons_of_mem _ hq)
      simpa [List.length_set] using this)

/-- fillRanks dies with undefined behaviour when some rank misses the vector. -/
theorem fillRanks_err_of (l : List (String × Int)) (v : List String)
    (h : ¬ ∀ p ∈ l, 0 ≤ p.2 ∧ p.2.toNat < v.length) :
    fillRanks v l = Except.error Err.ub := by
  induction l generalizing v with
  | nil => exact absurd (by simp) h
  | cons p rest ih =>
    obtain ⟨pn, pr⟩ := p
    by_cases hp : 0 ≤ pr ∧ pr.toNat < v.length
    · simp only [fillRanks, if_pos hp]
      refine ih (v.set pr.toNat pn) (fun hall => h ?_)
      intro q hq
      rcases List.mem_cons.mp hq with hq1 | hq2
      · subst hq1; exact hp
      · have := hall q hq2
        simpa [List.length_set] using this
    · simp only [fillRanks, if_neg hp]

/-- Ranks written by a successful fillRanks all index the vector. -/
theorem fillRanks_ranges (l : List (String × Int)) (v v2 : List String)
    (h : fillRanks v l = Except.ok v2) :
    ∀ p ∈ l, 0 ≤ p.2 ∧ p.2.toNat < v.length := by
  intro p hp
  by_contra hc
  have : ¬ ∀ q ∈ l, 0 ≤ q.2 ∧ q.2.toNat < v.length := fun hall => hc (hall p hp)
  rw [fillRanks_err_of l v this] at h
  cases h

/-- buildWorkerIds yields one WorkerId per name. -/
theorem buildWorkerIds_length (k : Nat) (tmp : List String) :
    (buildWorkerIds k tmp).length = tmp.length := by
  induction tmp generalizing k with
  | nil => rfl
  | cons n rest ih => simp [buildWorkerIds, ih]

/-- buildWorkerIds places the name at offset i under rank k + i. -/
theorem buildWorkerIds_get? (k : Nat) (tmp : List String) (i : Nat) :
    (buildWorkerIds k tmp).get? i =
      (tmp.get? i).map (fun n => WorkerId.mk n (Int.ofNat (k + i))) := by
  induction tmp generalizing k i with
  | nil => cases i <;> rfl
  | cons n rest ih =>
    cases i with
    | zero => rfl
    | succ i2 =>
      have harith : k + 1 + i2 = k + (i2 + 1) := by omega
      simp only [buildWorkerIds, List.get?]
      rw [ih (k + 1) i2, harith]

/-- What a successfully constructed agent looks like: the constructor
arguments are stored, the counter and tables start empty, the worker
list has one entry per transport rank carrying exactly that rank, and
every rank in the name map indexes the worker list. -/
theorem mkAgent_ok_spec (wn : String) (nm : List (String × Int)) (r sz : Int)
    (s : AgentState) (hmk : mkAgent wn nm r sz = Except.ok s) :
    s.nameMap = nm ∧ s.selfRank = r ∧ s.worldSize = sz ∧
    s.nextId = 0 ∧ s.store = [] ∧ s.futures = [] ∧ s.sendQueue = [] ∧
    s.workerIds.length = sz.toNat ∧
    (∀ i w, s.workerIds.get? i = some w → w.id = Int.ofNat i) ∧
    (∀ p ∈ nm, 0 ≤ p.2 ∧ p.2.toNat < sz.toNat) ∧
    1 < nm.length ∧ lookupName nm wn = some r := by
  unfold mkAgent at hmk
  by_cases hlen : 1 < nm.length
  · rw [if_pos hlen] at hmk
    cases hln : lookupName nm wn with
    | none => rw [hln] at hmk; cases hmk
    | some r2 =>
      rw [hln] at hmk
      dsimp only at hmk
      by_cases hr : r = r2
      · rw [if_pos hr] at hmk
        cases hfill : fillRanks (List.replicate sz.toNat "") nm with
        | error e => rw [hfill] at hmk; cases hmk
        | ok tmp =>
          rw [hfill] at hmk
          cases hmk
          have hlentmp : tmp.length = sz.toNat := by
            have : ∀ (l : List (String × Int)) (v v2 : List String),
                fillRanks v l = Except.ok v2 → v2.length = v.length := by
              intro l
              induction l with
              | nil => intro v v2 hv; cases hv; rfl
              | cons p rest ih =>
                intro v v2 hv
                obtain ⟨pn, pr⟩ := p
                by_cases hp : 0 ≤ pr ∧ pr.toNat < v.length
                · rw [fillRanks, if_pos hp] at hv
                  rw [ih _ _ hv, List.length_set]
                · rw [fillRanks, if_neg hp] at hv; cases hv
            have := this nm _ _ hfill
            simpa using this
          refine ⟨rfl, rfl, rfl, rfl, rfl, rfl, rfl, ?_, ?_, ?_, hlen, ?_⟩
          · rw [buildWorkerIds_length, hlentmp]
          · intro i w hw
            rw [buildWorkerIds_get? 0 tmp i] at hw
            cases hg : tmp.get? i with
            | none => rw [hg] at hw; cases hw
            | some n =>
              rw [hg] at hw
              cases hw
              simp
          · intro p hp
            have := fillRanks_ranges nm _ _ hfill p hp
            simpa using this
          · rw [hr]
      · rw [if_neg hr] at hmk; cases hmk
  · rw [if_neg hlen] at hmk; cases hmk

/-- Evaluation of send on a valid destination: both TORCH_CHECKs pass,
an id is drawn from the counter unconditionally, and the request branch
registers the Future and assigns the id before the SendWork joins the
queue, while the other branch completes the Future at once. -/
theorem send_ok (s : AgentState) (dst : WorkerId) (msg : Message) (w : WorkerId)
    (hself : dst.id ≠ s.selfRank) (hlt : dst.id < s.worldSize)
    (hnn : 0 ≤ dst.id) (hw : s.workerIds.get? dst.id.toNat = some w) :
    send s dst msg =
      if msg.isRequest then
        Except.ok (s.store.length,
          { s with
            nextId := s.nextId + 1
            store := s.store ++ [Future.mk false none]
            futures := s.futures ++ [(s.nextId, s.store.length)]
            sendQueue := s.sendQueue ++ [SendWork.mk w (msg.setId s.nextId)] })
      else
        Except.ok (s.store.length,
          { s with
            nextId := s.nextId + 1
            store := s.store ++ [Future.mk true none]
            sendQueue := s.sendQueue ++ [SendWork.mk w msg] }) := by
  obtain ⟨hl, hg⟩ := List.get?_eq_some.mp hw
  have hcond : 0 ≤ dst.id ∧ dst.id.toNat < s.workerIds.length := ⟨hnn, hl⟩
  unfold send enqueueSendStep
  rw [if_neg hself, if_pos hlt]
  dsimp only
  cases hm : msg.isRequest with
  | true =>
    have htrue : (true = true) := rfl
    rw [if_pos htrue, if_pos htrue, dif_pos hcond]
    simp only [hg]
  | false =>
    have hfalse : ¬ (false = true) := by simp
    rw [if_neg hfalse, if_neg hfalse, dif_pos hcond]
    simp only [hg]
    rfl

/-- C4: for every Message with non-empty payload, any number of
auxiliary blocks and type REQUEST or RESPONSE, decoding the encoded
body with the message's type yields the message back — same payload
bytes, same auxiliary blocks, same type, same id. -/
theorem c4_codec_roundtrip (m : Message) (_hp : m.payload ≠ [])
    (_ht : m.type = MessageType.request ∨ m.type = MessageType.response) :
    deserialize m.type (serialize m) = Except.ok m := by
  unfold serialize deserialize
  simp [List.reverse_append, Tensor.firstInt64, Tensor.payloadBytes]

/-- Witness for C4 at a concrete message with payload [1, 2], one
auxiliary block, type REQUEST and id 42. -/
theorem c4_codec_roundtrip_witness :
    demoMsg.payload ≠ [] ∧
    deserialize demoMsg.type (serialize demoMsg) = Except.ok demoMsg :=
  ⟨by simp [demoMsg], c4_codec_roundtrip demoMsg (by simp [demoMsg]) (Or.inl rfl)⟩

/-- C8: decoding a body with fewer than 2 trailing structured blocks
fails with the diagnosed decode error and never returns a Message. -/
theorem c8_short_body_rejected (t : MessageType) (ts : List Tensor)
    (h : ts.length < 2) :
    deserialize t ts = Except.error (Err.check "Failed to deserialize a message.") := by
  match ts with
  | [] => rfl
  | [a] => rfl
  | a :: b :: rest =>
    exfalso
    simp only [List.length_cons] at h
    omega

/-- Witness for C8 at the empty body and at a one-block body. -/
theorem c8_short_body_rejected_witness :
    ([] : List Tensor).length < 2 ∧
    deserialize MessageType.response [] =
      Except.error (Err.check "Failed to deserialize a message.") ∧
    deserialize MessageType.request [Tensor.char [1]] =
      Except.error (Err.check "Failed to deserialize a message.") :=
  ⟨by decide, c8_short_body_rejected MessageType.response [] (by decide),
    c8_short_body_rejected MessageType.request [Tensor.char [1]] (by decide)⟩

/-- C9: in every schedule of two concurrent send jobs toward the same
destination rank, the per-destination mutex held across the preamble
and body transmissions keeps the wire free of interleaving — each job's
transmissions form one contiguous block, and every completed execution
transmits one job's preamble and body, then the other's. -/
theorem c9_no_interleaving : c9check = true := by decide

/-- C1 counterexample: an incoming RESPONSE whose id 7 is absent from
the pending-request table makes the receive job dereference the null
shared_ptr that operator[] just default-constructed — undefined
behaviour (Err.ub), not the diagnosed fatal abort (Err.check) the claim
asserts. -/
theorem c1_missing_id_counterexample :
    handleResponse agentA respMsg7 = Except.error Err.ub := rfl

/-- C1 (amended): an incoming RESPONSE whose id is absent from the
PendingRequestTable crashes the receive job through a null-pointer
dereference (undefined behaviour, no diagnostic); for a present id the
corresponding Future is marked completed with the message and the entry
is removed from the table. -/
theorem c1_response_dispatch (s : AgentState) (msg : Message)
    (fidx : Nat) (f : Future) :
    (lookupId s.futures msg.id = none →
      handleResponse s msg = Except.error Err.ub) ∧
    (lookupId s.futures msg.id = some fidx →
      s.store.get? fidx = some f →
      handleResponse s msg = Except.ok
        { s with
          store := s.store.set fidx (f.markCompletedWith msg)
          futures := eraseId s.futures msg.id }) := by
  constructor
  · intro h
    unfold handleResponse
    rw [h]
  · intro h1 h2
    unfold handleResponse
    rw [h1]
    dsimp only
    rw [h2]

/-- Witness for C1: at the concrete pending state (id 7 registered at
store index 0) the response with id 7 completes that Future with the
message and erases the entry; at the concrete fresh agent the same
response crashes with undefined behaviour. -/
theorem c1_response_dispatch_witness :
    handleResponse agentA respMsg7 = Except.error Err.ub ∧
    handleResponse pendState respMsg7 = Except.ok
      { pendState with
        store := pendState.store.set 0
          ((Future.mk false none).markCompletedWith respMsg7)
        futures := eraseId pendState.futures respMsg7.id } :=
  ⟨(c1_response_dispatch agentA respMsg7 0 (Future.mk false none)).1 rfl,
    (c1_response_dispatch pendState respMsg7 0 (Future.mk false none)).2 rfl rfl⟩

/-- C3 counterexample: the destination rank -1 is outside [0,
worldSize) yet passes both TORCH_CHECKs (the source only compares
against worldSize from above); the call then indexes workerIds_[-1] —
undefined behaviour (Err.ub), not the diagnosed fatal precondition
violation (Err.check) the claim asserts. -/
theorem c3_negative_rank_counterexample :
    send agentA wNeg reqMsg = Except.error Err.ub := rfl

/-- C3 (amended): send() rejects with a diagnosed fatal precondition
violation a destination equal to the agent's own rank and a destination
rank at or above worldSize; a negative destination rank passes both
checks and instead hits an out-of-bounds vector access (undefined
behaviour, no diagnostic); an in-range non-self destination is never
rejected. -/
theorem c3_destination_checks (s : AgentState) (dst : WorkerId) (msg : Message) :
    (dst.id = s.selfRank →
      send s dst msg = Except.error (Err.check selfErrMsg)) ∧
    (dst.id ≠ s.selfRank → ¬ dst.id < s.worldSize →
      send s dst msg = Except.error (Err.check oobErrMsg)) ∧
    (dst.id ≠ s.selfRank → dst.id < s.worldSize → dst.id < 0 →
      send s dst msg = Except.error Err.ub) ∧
    (dst.id ≠ s.selfRank → dst.id < s.worldSize → 0 ≤ dst.id →
      dst.id.toNat < s.workerIds.length →
      ∃ x, send s dst msg = Except.ok x) := by
  refine ⟨?_, ?_, ?_, ?_⟩
  · intro h
    unfold send
    rw [if_pos h]
  · intro h1 h2
    unfold send
    rw [if_neg h1, if_neg h2]
  · intro h1 h2 h3
    unfold send enqueueSendStep
    rw [if_neg h1, if_pos h2]
    dsimp only
    have hnc : ¬ (0 ≤ dst.id ∧ dst.id.toNat < s.workerIds.length) :=
      fun hc => absurd hc.1 (Int.not_le.mpr h3)
    rw [dif_neg hnc, dif_neg hnc]
    cases msg.isRequest <;> rfl
  · intro h1 h2 h3 h4
    have hw : s.workerIds.get? dst.id.toNat =
        some (s.workerIds.get ⟨dst.id.toNat, h4⟩) := List.get?_eq_get h4
    have hs := send_ok s dst msg _ h1 h2 h3 hw
    cases hm : msg.isRequest with
    | true =>
      rw [if_pos hm] at hs
      exact ⟨_, hs⟩
    | false =>
      rw [if_neg (by rw [hm]; simp)] at hs
      exact ⟨_, hs⟩

/-- Witness for C3: the concrete agent rejects sending to itself with
the diagnosed precondition message, and the in-range non-self
destination b is accepted. -/
theorem c3_destination_checks_witness :
    send agentA (WorkerId.mk "a" 0) reqMsg = Except.error (Err.check selfErrMsg) ∧
    ∃ x, send agentA wB reqMsg = Except.ok x :=
  ⟨(c3_destination_checks agentA (WorkerId.mk "a" 0) reqMsg).1 rfl,
    (c3_destination_checks agentA wB reqMsg).2.2.2 (by decide) (by decide)
      (by decide) (by decide)⟩

/-- C2 counterexample: sending a RESPONSE does consume a request id —
the fresh agent's counter stands at 0 and a send() of a RESPONSE leaves
it at 1, because `auto requestId = nextId()` runs before the message
type is inspected; the claim asserts no id is consumed in that case. -/
theorem c2_response_consumes_id_counterexample :
    agentA.nextId = 0 ∧
    (send agentA wB respMsg).map (fun p => p.2.nextId) = Except.ok 1 :=
  ⟨rfl, rfl⟩

/-- C2 (amended): every call of send() on a valid destination draws a
fresh id from the monotonically increasing counter, whatever the
message type; only for a REQUEST is the id assigned to the message and
its Future registered in the PendingRequestTable, and the registration
and assignment are in place before the SendWork job is enqueued. -/
theorem c2_id_allocation (s : AgentState) (dst : WorkerId) (msg : Message)
    (w : WorkerId) (hself : dst.id ≠ s.selfRank) (hlt : dst.id < s.worldSize)
    (hnn : 0 ≤ dst.id) (hw : s.workerIds.get? dst.id.toNat = some w) :
    ∃ s2,
      send s dst msg = Except.ok (s.store.length, s2) ∧
      s2.nextId = s.nextId + 1 ∧
      (msg.isRequest = true →
        s2.futures = s.futures ++ [(s.nextId, s.store.length)] ∧
        s2.store = s.store ++ [Future.mk false none] ∧
        s2.sendQueue = s.sendQueue ++ [SendWork.mk w (msg.setId s.nextId)]) ∧
      (msg.isRequest = false →
        s2.futures = s.futures ∧
        s2.store = s.store ++ [Future.mk true none] ∧
        s2.sendQueue = s.sendQueue ++ [SendWork.mk w msg]) := by
  have hs := send_ok s dst msg w hself hlt hnn hw
  cases hm : msg.isRequest with
  | true =>
    rw [if_pos hm] at hs
    exact ⟨_, hs, rfl, fun _ => ⟨rfl, rfl, rfl⟩, fun hc => Bool.noConfusion hc⟩
  | false =>
    rw [if_neg (by rw [hm]; simp)] at hs
    exact ⟨_, hs, rfl, fun hc => Bool.noConfusion hc, fun _ => ⟨rfl, rfl, rfl⟩⟩

/-- Witness for C2 (amended) at the concrete agent sending a REQUEST
to worker b. -/
theorem c2_id_allocation_witness :
    ∃ s2,
      send agentA wB reqMsg = Except.ok (agentA.store.length, s2) ∧
      s2.nextId = agentA.nextId + 1 ∧
      (reqMsg.isRequest = true →
        s2.futures = agentA.futures ++ [(agentA.nextId, agentA.store.length)] ∧
        s2.store = agentA.store ++ [Future.mk false none] ∧
        s2.sendQueue = agentA.sendQueue ++ [SendWork.mk wB (reqMsg.setId agentA.nextId)]) ∧
      (reqMsg.isRequest = false →
        s2.futures = agentA.futures ∧
        s2.store = agentA.store ++ [Future.mk true none] ∧
        s2.sendQueue = agentA.sendQueue ++ [SendWork.mk wB reqMsg]) :=
  c2_id_allocation agentA wB reqMsg wB (by decide) (by decide) (by decide) rfl

/-- C7: send() of a message of type RESPONSE or SHUTDOWN to a valid
destination returns a Future that is already marked completed when
send() returns. -/
theorem c7_fire_and_forget (s : AgentState) (dst : WorkerId) (msg : Message)
    (w : WorkerId) (hself : dst.id ≠ s.selfRank) (hlt : dst.id < s.worldSize)
    (hnn : 0 ≤ dst.id) (hw : s.workerIds.get? dst.id.toNat = some w)
    (ht : msg.type = MessageType.response ∨ msg.type = MessageType.shutdown) :
    ∃ s2, send s dst msg = Except.ok (s.store.length, s2) ∧
      s2.store.get? s.store.length = some (Future.mk true none) := by
  have hm : msg.isRequest = false := by
    rcases ht with h | h <;> simp [Message.isRequest, h]
  have hs := send_ok s dst msg w hself hlt hnn hw
  rw [if_neg (by rw [hm]; simp)] at hs
  exact ⟨_, hs, get?_concat_self s.store (Future.mk true none)⟩

/-- Witness for C7 at the concrete agent sending a RESPONSE to b. -/
theorem c7_fire_and_forget_witness :
    ∃ s2, send agentA wB respMsg = Except.ok (agentA.store.length, s2) ∧
      s2.store.get? agentA.store.length = some (Future.mk true none) :=
  c7_fire_and_forget agentA wB respMsg wB (by decide) (by decide) (by decide)
    rfl (Or.inl rfl)

/-- C6: send() of a REQUEST to a valid destination returns a Future
that is unresolved when send() returns and stays registered under the
allocated id; a RESPONSE carrying that id resolves it to exactly that
response's Message and unregisters it, while a RESPONSE carrying any
other id that completes normally leaves it unresolved. -/
theorem c6_request_future (s : AgentState) (dst : WorkerId) (msg : Message)
    (w : WorkerId) (hself : dst.id ≠ s.selfRank) (hlt : dst.id < s.worldSize)
    (hnn : 0 ≤ dst.id) (hw : s.workerIds.get? dst.id.toNat = some w)
    (hreq : msg.isRequest = true)
    (hfresh : lookupId s.futures s.nextId = none)
    (htbl : ∀ p ∈ s.futures, p.2 < s.store.length) :
    ∃ s2,
      send s dst msg = Except.ok (s.store.length, s2) ∧
      s2.store.get? s.store.length = some (Future.mk false none) ∧
      lookupId s2.futures s.nextId = some s.store.length ∧
      (∀ resp : Message, resp.id = s.nextId →
        ∃ s3, handleResponse s2 resp = Except.ok s3 ∧
          s3.store.get? s.store.length = some (Future.mk true (some resp)) ∧
          lookupId s3.futures s.nextId = none) ∧
      (∀ resp : Message, resp.id ≠ s.nextId →
        ∀ s3, handleResponse s2 resp = Except.ok s3 →
          s3.store.get? s.store.length = some (Future.mk false none)) := by
  have hs := send_ok s dst msg w hself hlt hnn hw
  rw [if_pos hreq] at hs
  have hlook : lookupId (s.futures ++ [(s.nextId, s.store.length)]) s.nextId =
      some s.store.length := by
    rw [lookupId_append_none _ _ _ hfresh]
    simp [lookupId]
  refine ⟨_, hs, get?_concat_self s.store (Future.mk false none), hlook, ?_, ?_⟩
  · intro resp hrid
    unfold handleResponse
    dsimp only
    rw [hrid, hlook]
    dsimp only
    rw [get?_concat_self s.store (Future.mk false none)]
    refine ⟨_, rfl, ?_, ?_⟩
    · show ((s.store ++ [Future.mk false none]).set s.store.length
        ((Future.mk false none).markCompletedWith resp)).get? s.store.length =
        some (Future.mk true (some resp))
      rw [set_concat_len]
      exact get?_concat_self s.store _
    · show lookupId (eraseId (s.futures ++ [(s.nextId, s.store.length)]) s.nextId)
        s.nextId = none
      rw [eraseId_append_none _ _ _ hfresh]
      exact hfresh
  · intro resp hne s3 h3
    unfold handleResponse at h3
    cases hl2 : lookupId (s.futures ++ [(s.nextId, s.store.length)]) resp.id with
    | none => rw [hl2] at h3; cases h3
    | some fidx2 =>
      rw [hl2] at h3
      dsimp only at h3
      rw [lookupId_append_ne _ _ _ _ hne] at hl2
      have hlt2 : fidx2 < s.store.length := htbl _ (lookupId_mem _ _ _ hl2)
      cases hg2 : (s.store ++ [Future.mk false none]).get? fidx2 with
      | none => rw [hg2] at h3; cases h3
      | some f2 =>
        rw [hg2] at h3
        cases h3
        show (((s.store ++ [Future.mk false none]).set fidx2
          (f2.markCompletedWith resp))).get? s.store.length =
          some (Future.mk false none)
        rw [get?_set_of_ne _ _ _ _ (Nat.ne_of_lt hlt2)]
        exact get?_concat_self s.store (Future.mk false none)

/-- Witness for C6 at the concrete agent sending a REQUEST to b. -/
theorem c6_request_future_witness :
    ∃ s2,
      send agentA wB reqMsg = Except.ok (agentA.store.length, s2) ∧
      s2.store.get? agentA.store.length = some (Future.mk false none) ∧
      lookupId s2.futures agentA.nextId = some agentA.store.length ∧
      (∀ resp : Message, resp.id = agentA.nextId →
        ∃ s3, handleResponse s2 resp = Except.ok s3 ∧
          s3.store.get? agentA.store.length = some (Future.mk true (some resp)) ∧
          lookupId s3.futures agentA.nextId = none) ∧
      (∀ resp : Message, resp.id ≠ agentA.nextId →
        ∀ s3, handleResponse s2 resp = Except.ok s3 →
          s3.store.get? agentA.store.length = some (Future.mk false none)) :=
  c6_request_future agentA wB reqMsg wB (by decide) (by decide) (by decide)
    rfl rfl rfl (by simp [agentA])

/-- C5 counterexample: the map a ↦ 0, b ↦ 5 with local worker a at
transport rank 0 in a world of size 2 passes all three constructor
checks, then the loop writes tmpWorkerIds[5] in a vector of size 2 —
undefined behaviour (Err.ub), not the deterministic diagnosed
configuration failure (Err.check) the claim asserts. -/
theorem c5_out_of_range_counterexample :
    mkAgent "a" [("a", 0), ("b", 5)] 0 2 = Except.error Err.ub := rfl

/-- C5 (amended): construction succeeds exactly when the map has at
least 2 entries, the local name resolves to the transport's
self-reported rank, and every rank in the map lies in [0, worldSize);
failing any of the three validated conditions — too few entries, an
unresolvable local name, or a resolved rank that differs from the
transport rank — fails deterministically with the diagnosed fatal
configuration error of that check (Err.check with its TORCH_CHECK
message), but a map that passes them while containing an out-of-range
rank triggers an out-of-bounds vector write — undefined behaviour
(Err.ub), not a diagnosed failure. -/
theorem c5_construction (wn : String) (nm : List (String × Int)) (r sz : Int) :
    ((∃ a, mkAgent wn nm r sz = Except.ok a) ↔
      (1 < nm.length ∧ lookupName nm wn = some r ∧
        ∀ p ∈ nm, 0 ≤ p.2 ∧ p.2 < sz)) ∧
    (¬ 1 < nm.length →
      mkAgent wn nm r sz = Except.error
        (Err.check "ProcessGroupAgent requires world_size to be at least 2")) ∧
    (1 < nm.length → lookupName nm wn = none →
      mkAgent wn nm r sz = Except.error
        (Err.check ("Failed to resolve worker name " ++ wn ++
          " to a ProcessGroup rank."))) ∧
    (∀ r2, 1 < nm.length → lookupName nm wn = some r2 → r ≠ r2 →
      mkAgent wn nm r sz = Except.error
        (Err.check "Resolved worker rank does not match ProcessGroup rank")) ∧
    (1 < nm.length → lookupName nm wn = some r →
      (¬ ∀ p ∈ nm, 0 ≤ p.2 ∧ p.2 < sz) →
      mkAgent wn nm r sz = Except.error Err.ub) := by
  have hconv : ∀ p : String × Int,
      (0 ≤ p.2 ∧ p.2.toNat < (List.replicate sz.toNat "").length) ↔
      (0 ≤ p.2 ∧ p.2 < sz) := by
    intro p
    rw [List.length_replicate]
    omega
  refine ⟨⟨?_, ?_⟩, ?_, ?_, ?_, ?_⟩
  · rintro ⟨a, ha⟩
    obtain ⟨_, _, _, _, _, _, _, _, _, hranges, hlen, hlook⟩ :=
      mkAgent_ok_spec wn nm r sz a ha
    refine ⟨hlen, hlook, fun p hp => ?_⟩
    have := hranges p hp
    omega
  · rintro ⟨h1, h2, h3⟩
    obtain ⟨v2, hv⟩ := fillRanks_ok_of nm (List.replicate sz.toNat "")
      (fun p hp => (hconv p).mpr (h3 p hp))
    unfold mkAgent
    rw [if_pos h1, h2]
    dsimp only
    rw [if_pos rfl, hv]
    exact ⟨_, rfl⟩
  · intro h1
    unfold mkAgent
    rw [if_neg h1]
  · intro h1 h2
    unfold mkAgent
    rw [if_pos h1, h2]
  · intro r2 h1 h2 hne
    unfold mkAgent
    rw [if_pos h1, h2]
    dsimp only
    rw [if_neg hne]
  · intro h1 h2 h3
    have hno : ¬ ∀ p ∈ nm, 0 ≤ p.2 ∧
        p.2.toNat < (List.replicate sz.toNat "").length :=
      fun hall => h3 (fun p hp => (hconv p).mp (hall p hp))
    unfold mkAgent
    rw [if_pos h1, h2]
    dsimp only
    rw [if_pos rfl, fillRanks_err_of nm _ hno]

/-- Witness for C5 (amended): the valid two-worker map constructs an
agent; the singleton map fails with the diagnosed world-size
configuration error; and the map with rank 5 in a world of size 2
passes the three checks but dies with undefined behaviour. -/
theorem c5_construction_witness :
    (∃ a, mkAgent "a" [("a", 0), ("b", 1)] 0 2 = Except.ok a) ∧
    mkAgent "a" [("a", 0)] 0 1 = Except.error
      (Err.check "ProcessGroupAgent requires world_size to be at least 2") ∧
    mkAgent "a" [("a", 0), ("b", 5)] 0 2 = Except.error Err.ub :=
  ⟨(c5_construction "a" [("a", 0), ("b", 1)] 0 2).1.mpr
      ⟨by decide, rfl, by decide⟩,
    (c5_construction "a" [("a", 0)] 0 1).2.1 (by decide),
    (c5_construction "a" [("a", 0), ("b", 5)] 0 2).2.2.2.2 (by decide) rfl
      (by intro h; have := h ("b", 5) (by simp); omega)⟩

/-- C10: on an agent built by a successful construction, getWorkerId of
a name absent from the registry fails with the diagnosed fatal error
naming the unknown destination, and getWorkerId of a registered name
returns a WorkerId whose rank is exactly the rank the registry maps
that name to. -/
theorem c10_worker_lookup (wn : String) (nm : List (String × Int)) (r sz : Int)
    (s : AgentState) (hmk : mkAgent wn nm r sz = Except.ok s)
    (q : String) (rk : Int) :
    (lookupName nm q = none →
      getWorkerId s q = Except.error (Err.check ("Unknown destination worker " ++ q))) ∧
    (lookupName nm q = some rk →
      ∃ w2, getWorkerId s q = Except.ok w2 ∧ w2.id = rk) := by
  obtain ⟨hnm, _, _, _, _, _, _, hwlen, hwid, hranges, _, _⟩ :=
    mkAgent_ok_spec wn nm r sz s hmk
  constructor
  · intro h
    unfold getWorkerId
    rw [hnm, h]
  · intro h
    have hr := hranges _ (lookupName_mem nm q rk h)
    have hcond : 0 ≤ rk ∧ rk.toNat < s.workerIds.length :=
      ⟨hr.1, by rw [hwlen]; exact hr.2⟩
    unfold getWorkerId
    rw [hnm, h]
    dsimp only
    rw [dif_pos hcond]
    refine ⟨_, rfl, ?_⟩
    have hg : s.workerIds.get? rk.toNat =
        some (s.workerIds.get ⟨rk.toNat, hcond.2⟩) := List.get?_eq_get hcond.2
    rw [hwid rk.toNat _ hg]
    exact Int.toNat_of_nonneg hr.1

/-- Witness for C10: on the concretely constructed agent, the unknown
name zzz fails with the diagnosed message and the registered name b
resolves to rank 1. -/
theorem c10_worker_lookup_witness :
    getWorkerId agentA "zzz" =
      Except.error (Err.check ("Unknown destination worker " ++ "zzz")) ∧
    ∃ w2, getWorkerId agentA "b" = Except.ok w2 ∧ w2.id = 1 :=
  ⟨(c10_worker_lookup "a" [("a", 0), ("b", 1)] 0 2 agentA rfl "zzz" 0).1 rfl,
    (c10_worker_lookup "a" [("a", 0), ("b", 1)] 0 2 agentA rfl "b" 1).2 rfl⟩

end PGAgent
